import Mathlib

/-!
# Verification of the browserstate storage synchronization core

Shallow embedding of `src/python/browserstate` (the Python implementation):

* `browserstate/storage/redis_storage.py` — the key-value backend:
  format detection over raw bytes (including CPython's permissive
  `base64.b64decode`), the tar safe-extraction guard built on
  `os.path.commonprefix`, upload/download/list_sessions/delete over an
  associative key-value store, and the key schema.
* `browserstate/storage/local_storage.py` — the local backend's
  download behavior (stale-directory handling).
* `browserstate/browser_state.py` — the session lifecycle manager
  (mount/unmount/delete), modelled as explicit state passing over an
  abstract storage provider.

Bytes are `Nat` (values 0..255), Redis keys and filesystem paths are
`List Char`, archive entry names are component lists (`List (List Char)`).
Python exceptions are `Except String`/`Option` results; a raised exception
propagating out of a method is an `Except.error` paired with the object
state as mutated up to the raise point.
-/

namespace BrowserState

/-! ## Bytes and CPython base64 decoding

`base64.b64decode(data)` with the default `validate=False` is
`binascii.a2b_base64`: characters above 0x7f and characters outside the
base64 alphabet are silently discarded; a pad character terminates the
input only when it ends a quad (quad position 3, or position 2 with the
next valid character also a pad), otherwise it is discarded too; after
the loop, leftover bits (data-character count not a multiple of 4)
raise `binascii.Error` (modelled as `none`). -/

/-- Value of a base64 alphabet character (byte), `none` for non-alphabet
bytes (the `-1` entries of CPython's `table_a2b_base64`). -/
def b64CharVal (c : Nat) : Option Nat :=
  if 65 ≤ c ∧ c ≤ 90 then some (c - 65)
  else if 97 ≤ c ∧ c ≤ 122 then some (c - 97 + 26)
  else if 48 ≤ c ∧ c ≤ 57 then some (c - 48 + 52)
  else if c = 43 then some 62
  else if c = 47 then some 63
  else none

/-- A byte that `binascii_find_valid` counts as valid: ASCII and either in
the alphabet or the pad character 61 (`=`, mapped to 0 in the table). -/
def b64IsValidChar (c : Nat) : Bool :=
  decide (c ≤ 0x7f) && ((b64CharVal c).isSome || decide (c = 61))

/-- First valid base64 byte of the input (`binascii_find_valid` with
`num = 0`). -/
def b64FindValid : List Nat → Option Nat
  | [] => none
  | c :: rest => if b64IsValidChar c then some c else b64FindValid rest

/-- Main loop of `binascii.a2b_base64` (CPython 3.10, non-strict).
State: quad position, accumulated bit buffer, number of buffered bits. -/
def a2bBase64Loop : List Nat → Nat → Nat → Nat → Option (List Nat)
  | [], _, _, leftbits => if leftbits = 0 then some [] else none
  | c :: rest, quadPos, leftchar, leftbits =>
    if 0x7f < c then a2bBase64Loop rest quadPos leftchar leftbits
    else if c = 61 then
      if quadPos < 2 ∨ (quadPos = 2 ∧ b64FindValid rest ≠ some 61) then
        a2bBase64Loop rest quadPos leftchar leftbits
      else
        some []
    else
      match b64CharVal c with
      | none => a2bBase64Loop rest quadPos leftchar leftbits
      | some v =>
        let lc := leftchar * 64 + v
        let lb := leftbits + 6
        if 8 ≤ lb then
          match a2bBase64Loop rest ((quadPos + 1) % 4) (lc % 2 ^ (lb - 8)) (lb - 8) with
          | some out => some ((lc / 2 ^ (lb - 8)) % 256 :: out)
          | none => none
        else a2bBase64Loop rest ((quadPos + 1) % 4) lc lb

/-- `base64.b64decode(data)` (default arguments): `none` models a raised
`binascii.Error`. -/
def b64decode (data : List Nat) : Option (List Nat) :=
  a2bBase64Loop data 0 0 0

/-- The gzip magic bytes `\x1f\x8b`. -/
def gzipMagic : List Nat := [0x1f, 0x8b]

/-- The zip local-file-header magic bytes `PK\x03\x04`. -/
def zipMagic : List Nat := [0x50, 0x4b, 0x03, 0x04]

/-- The base64 probe of `_detect_format`: try `base64.b64decode(data)`
and check the decoded bytes for the zip magic; any decode exception is
swallowed (`except: pass`). -/
def b64LooksZip (data : List Nat) : Bool :=
  match b64decode data with
  | some decoded => decide (decoded.take 4 = zipMagic)
  | none => false

/-- `RedisStorage._detect_format`: gzip magic first; then the base64
probe; then the raw bytes are checked for the zip magic; otherwise
"unknown". -/
def detect_format (data : List Nat) : String :=
  if data.take 2 = gzipMagic then "tar.gz"
  else if b64LooksZip data then "zip"
  else if data.take 4 = zipMagic then "zip"
  else "unknown"

example : detect_format [0x1f, 0x8b, 0, 0] = "tar.gz" := by decide
example : detect_format [0x50, 0x4b, 0x03, 0x04, 9] = "zip" := by decide
-- "UEsDBA==" is the base64 encoding of PK\x03\x04.
example : detect_format [85, 69, 115, 68, 66, 65, 61, 61] = "zip" := by decide
example : detect_format [1, 2, 3, 4] = "unknown" := by decide

/-! ## POSIX path operations (`os.path`), on `List Char`

Only the functions the source uses: `join`, `normpath` (via `abspath`:
the paths fed to `abspath` in `_safe_extract` are already absolute, so
`abspath` reduces to `normpath`), and the character-wise
`commonprefix`. -/

/-- Split a character list on a separator character (`str.split(sep)`):
`"".split` is `[""]`, separators at the ends produce empty pieces. -/
def splitOnChar (sep : Char) : List Char → List (List Char)
  | [] => [[]]
  | c :: rest =>
    let r := splitOnChar sep rest
    if c = sep then [] :: r
    else
      match r with
      | h :: t => (c :: h) :: t
      | [] => [[c]]

/-- Join pieces with a separator character (`sep.join(pieces)`). -/
def joinWithChar (sep : Char) : List (List Char) → List Char
  | [] => []
  | [p] => p
  | p :: rest => p ++ sep :: joinWithChar sep rest

/-- `os.path.join(a, b)` for two POSIX components: an absolute `b`
replaces `a`; otherwise a separator is inserted unless `a` is empty or
already ends with one. -/
def osJoin (a b : List Char) : List Char :=
  if b.headI = '/' ∧ b ≠ [] then b
  else if a = [] then b
  else if a.getLast? = some '/' then a ++ b
  else a ++ '/' :: b

/-- `os.path.normpath` (POSIX): collapse `//`, drop `.` components,
resolve `..` against preceding components (at the root, `..` vanishes;
a relative path keeps leading `..`s). Exactly two leading slashes are
preserved, per POSIX. -/
def normpath (p : List Char) : List Char :=
  if p = [] then ['.']
  else
    let initialSlashes : Nat :=
      if p.headI = '/' then
        if p.take 2 = ['/', '/'] ∧ p.take 3 ≠ ['/', '/', '/'] then 2 else 1
      else 0
    let comps := splitOnChar '/' p
    let newComps := comps.foldl
      (fun acc comp =>
        if comp = [] ∨ comp = ['.'] then acc
        else if comp ≠ ['.', '.'] ∨ (initialSlashes = 0 ∧ acc = []) ∨
                acc.getLast? = some ['.', '.'] then acc ++ [comp]
        else acc.dropLast)
      []
    let out := List.replicate initialSlashes '/' ++ joinWithChar '/' newComps
    if out = [] then ['.'] else out

/-- `os.path.abspath` for the (always absolute) paths the safe-extract
guard passes it: `normpath`. -/
def abspath (p : List Char) : List Char := normpath p

/-- `os.path.commonprefix([a, b])`: the longest common character-wise
(not component-wise) leading run of the two strings. -/
def commonPref : List Char → List Char → List Char
  | a :: as, b :: bs => if a = b then a :: commonPref as bs else []
  | _, _ => []

/-- The inner predicate of `RedisStorage._safe_extract`:
`os.path.commonprefix([abspath(directory), abspath(target)]) ==
abspath(directory)`. -/
def is_within_directory (directory target : List Char) : Bool :=
  commonPref (abspath directory) (abspath target) = abspath directory

example : is_within_directory "/tmp/bs/u/s".data "/tmp/bs/u/s/a.txt".data = true := by decide
example : is_within_directory "/tmp/bs/u/s".data "/tmp/bs/u/s/../../evil.txt".data = false := by decide
-- The character-wise prefix check admits sibling directories whose name
-- extends the target's name.
example : is_within_directory "/tmp/bs/u/s".data "/tmp/bs/u/s2/evil.txt".data = true := by decide

/-! ## Archive entries and the codec layer

An archive entry is a relative name (path components, as written in the
container) plus file bytes (`none` for a directory entry). A directory
tree on disk is its `os.walk` listing: the same shape. The byte
containers themselves (gzip/zip framing) are produced and consumed by
the Python standard library; the model identifies a stored blob with its
container format and entry list. -/

/-- One archive entry / one filesystem object: name as path components,
`none` content for a directory. -/
structure Entry where
  name : List (List Char)
  content : Option (List Nat)
deriving DecidableEq, Repr

/-- A directory tree, as the list of its files and directories with
paths relative to the tree root. -/
abbrev Tree := List Entry

/-- The files of a tree (directory entries carry no bytes). -/
def filesOf (t : Tree) : Tree := t.filter (fun e => e.content.isSome)

/-- Render an entry name as the string stored in the container. -/
def renderName (name : List (List Char)) : List Char :=
  joinWithChar '/' name

/-- `RedisStorage._safe_extract`'s member loop: every member name, joined
under the extraction path, must satisfy `is_within_directory`. -/
def safeExtractCheck (path : List Char) (entries : List Entry) : Bool :=
  entries.all (fun e => is_within_directory path (osJoin path (renderName e.name)))

/-- `ZipFile._extract_member` name sanitization (CPython, POSIX): drop
every component that is empty, `.` or `..`; a leading slash becomes an
empty first component and is likewise dropped. No error is ever raised
for a name. -/
def zipSanitizeName (name : List (List Char)) : List (List Char) :=
  name.filter (fun comp => ¬(comp = [] ∨ comp = ['.'] ∨ comp = ['.', '.']))

/-- Sanitize a zip entry as `extractall` does. -/
def zipSanitizeEntry (e : Entry) : Entry :=
  { e with name := zipSanitizeName e.name }

/-- `tar.add(file_path, arcname=os.path.basename(file_path))`: the
directory itself is one entry named by its basename, and every walked
entry is prefixed with that basename. -/
def tarPack (basename : List Char) (tree : Tree) : List Entry :=
  ⟨[basename], none⟩ :: tree.map (fun e => { e with name := basename :: e.name })

/-- The zip pack loop (`os.walk` + `arc_name = os.path.relpath(...)`):
one entry per file, named by its path relative to the source root;
directories produce no entry. -/
def zipPack (tree : Tree) : List Entry := filesOf tree

/-- `sum(len(files) for _, _, files in os.walk(file_path))`. -/
def countFiles (tree : Tree) : Nat := (filesOf tree).length

/-! ## The key-value (Redis) backend

Redis is an associative store from key strings to values. A stored value
is identified with its container format and decoded entry list: a
`tarGz` blob (raw gzip bytes, magic `1F 8B`), a `zipB64` blob (base64
text whose decoding is a zip archive, magic `PK\x03\x04` after
decoding), a `zipRaw` blob (raw zip bytes), a `meta` value (the JSON
metadata document), or `raw` bytes recognized as no container (kept at
byte level so `_detect_format` applies literally). -/

/-- A value stored in Redis. -/
inductive RedisVal where
  | tarGz (entries : List Entry)
  | zipB64 (entries : List Entry)
  | zipRaw (entries : List Entry)
  | meta (timestamp : Nat) (fileCount : Nat) (version : String)
  | raw (data : List Nat)
deriving DecidableEq, Repr

/-- The Redis keyspace: an associative list, `SET` replaces in place. -/
abbrev RedisStore := List (List Char × RedisVal)

/-- `redis.set(key, value)`. -/
def redisSet : RedisStore → List Char → RedisVal → RedisStore
  | [], k, v => [(k, v)]
  | (k', v') :: rest, k, v =>
    if k' = k then (k, v) :: rest else (k', v') :: redisSet rest k v

/-- `redis.get(key)`: `None` when absent. -/
def redisGet : RedisStore → List Char → Option RedisVal
  | [], _ => none
  | (k', v') :: rest, k => if k' = k then some v' else redisGet rest k

/-- `RedisStorage.__init__`: the only validation is of `format`; the key
prefix (field `key_prefix`, renamed here) is stored as given, colons
included. -/
def redisInit (keyPref : String) (format : String) :
    Except String (String × String) :=
  if format ≠ "tar.gz" ∧ format ≠ "zip" then
    .error "format must be \"tar.gz\" or \"zip\""
  else
    .ok (keyPref, format)

/-- `RedisStorage._get_key`: `f"{self.key_prefix}:{user_id}:{session_id}"`. -/
def get_key (keyPref user_id session_id : List Char) : List Char :=
  keyPref ++ ':' :: user_id ++ ':' :: session_id

/-- `RedisStorage._get_metadata_key`:
`f"{self.key_prefix}:{user_id}:{session_id}:metadata"`. -/
def get_metadata_key (keyPref user_id session_id : List Char) : List Char :=
  keyPref ++ ':' :: user_id ++ ':' :: session_id ++ ':' :: "metadata".data

/-- `RedisStorage.upload`: with format "tar.gz", pack with
`tar.add(file_path, arcname=os.path.basename(file_path))` and `SET` the
session key only; with format "zip", pack one entry per walked file
under its relative name, base64-encode, `SET` the session key and then
the metadata key (timestamp from the directory mtime, file count from
the walk, version "2.0"). `basename` is `os.path.basename(file_path)`
and `mtime` the directory's `os.path.getmtime` in milliseconds. -/
def redisUpload (st : RedisStore) (keyPref user_id session_id : List Char)
    (format : String) (basename : List Char) (tree : Tree) (mtime : Nat) :
    RedisStore :=
  if format = "tar.gz" then
    redisSet st (get_key keyPref user_id session_id) (.tarGz (tarPack basename tree))
  else
    let st1 := redisSet st (get_key keyPref user_id session_id) (.zipB64 (zipPack tree))
    redisSet st1 (get_metadata_key keyPref user_id session_id)
      (.meta mtime (countFiles tree) "2.0")

/-- The extraction phase of `RedisStorage.download`, dispatching on the
detected format of a present blob: the tar branch runs `_safe_extract`
(guard, then `extractall` placing each member at its name under the
target); either zip branch writes the (possibly base64-decoded) bytes to
a scratch file and runs `ZipFile.extractall`, whose stdlib sanitization
never raises; `raw` bytes recognized as no container raise
`Unknown format: unknown`, and raw bytes that happen to carry an archive
magic fail inside the stdlib parser — either way the exception is logged
and re-raised. -/
def redisExtract (blob : RedisVal) (target : List Char) : Except String Tree :=
  match blob with
  | .tarGz entries =>
    if safeExtractCheck target entries then .ok entries
    else .error "Attempted Path Traversal in Tar File"
  | .zipB64 entries => .ok (entries.map zipSanitizeEntry)
  | .zipRaw entries => .ok (entries.map zipSanitizeEntry)
  | .meta _ _ _ => .error "extraction error"
  | .raw data =>
    if detect_format data = "unknown" then .error "Unknown format: unknown"
    else .error "extraction error"

/-- `RedisStorage.download`, given the stored blob at the session key and
the prior contents of the target temp directory (`prior`): the target is
always cleared and recreated first (`shutil.rmtree` + `os.makedirs`), so
`prior` is discarded unconditionally; an absent blob yields the empty
directory; a present blob is extracted per `redisExtract`. The result is
the tree left at the target. -/
def redisDownloadTree (blob? : Option RedisVal) (prior : Option Tree)
    (target : List Char) : Except String Tree :=
  let _cleared : Option Tree := prior
  match blob? with
  | none => .ok []
  | some blob => redisExtract blob target

/-- `RedisStorage.download` against a whole store: fetch the session key
(the metadata key is also fetched, but only logged), then extract. -/
def redisDownload (st : RedisStore) (keyPref user_id session_id : List Char)
    (prior : Option Tree) (target : List Char) : Except String Tree :=
  redisDownloadTree (redisGet st (get_key keyPref user_id session_id)) prior target

/-- The per-key body of `RedisStorage.list_sessions`: split the key on
`:`; skip it when it has a fourth part equal to "metadata"; collect its
third part when it has exactly three parts; collection is into a Python
`set` (membership-deduplicated). -/
def listSessionsStep (acc : List (List Char)) (k : List Char) : List (List Char) :=
  let parts := splitOnChar ':' k
  if 3 < parts.length ∧ parts.get? 3 = some "metadata".data then acc
  else if parts.length = 3 then
    match parts.get? 2 with
    | some sid => if sid ∈ acc then acc else acc ++ [sid]
    | none => acc
  else acc

/-- `RedisStorage.list_sessions`: `KEYS f"{prefix}:{user_id}:*"` (the
glob `*` matches any suffix, so the pattern is a prefix filter), then
classify each key and deduplicate. -/
def redisListSessions (st : RedisStore) (keyPref user_id : List Char) :
    List (List Char) :=
  let patternPref := keyPref ++ ':' :: user_id ++ [':']
  let keys := (st.map Prod.fst).filter (fun k => patternPref.isPrefixOf k)
  keys.foldl listSessionsStep []

/-- `RedisStorage.delete_session`: `DEL` on both the session key and the
metadata key. -/
def redisDelete : RedisStore → List Char → RedisStore
  | [], _ => []
  | (k', v') :: rest, k =>
    if k' = k then redisDelete rest k else (k', v') :: redisDelete rest k

/-- Both deletions of `RedisStorage.delete_session`. -/
def redisDeleteSession (st : RedisStore) (keyPref user_id session_id : List Char) :
    RedisStore :=
  redisDelete (redisDelete st (get_key keyPref user_id session_id))
    (get_metadata_key keyPref user_id session_id)

/-! ## The local backend's download (`LocalStorage.download`) -/

/-- `LocalStorage.download`, on the persisted session tree (`none` when
`{base}/{user}/{session}` does not exist) and the prior contents of the
temp target (`none` when the target directory does not exist). The
result is the raised-or-returned outcome paired with the tree left at
the target. When the session exists: the target is removed if present
and recreated empty, then `shutil.copytree(session_path, target_path,
True)` runs — but its third positional parameter is `symlinks` (the
inline comment notwithstanding), so `dirs_exist_ok` keeps its default
`False`, and because the target was just created, `copytree`'s own
`os.makedirs(dst, exist_ok=False)` raises `FileExistsError` before
copying anything: the call always raises, leaving the target empty.
When the session does not exist: only
`os.makedirs(target_path, exist_ok=True)` runs, so an existing target
keeps its stale contents and the path is returned. -/
def localDownload (persisted : Option Tree) (prior : Option Tree) :
    Except String Unit × Tree :=
  match persisted with
  | some _ => (.error "FileExistsError", [])
  | none =>
    match prior with
    | some stale => (.ok (), stale)
    | none => (.ok (), [])

/-! ## The session manager (`browser_state.py`)

`BrowserState` holds `user_id` and `active_session` (a dict with keys
"id" and "path"). Its methods call an injected storage provider; the
provider is abstracted as a record of state transformers over a provider
state `σ`, each returning the Python outcome (`Except.error` = raised
exception) together with the provider state as mutated by the call. The
local filesystem of temp working directories is a map from path to tree,
separate from the provider state; `storage.download` materializes a tree
at the path it returns, and `shutil.rmtree` in `_cleanup_session`
removes the active path's entry. -/

/-- The `active_session` dict: `{"id": ..., "path": ...}`. -/
structure ActiveSession where
  id : String
  path : String
deriving DecidableEq, Repr

/-- The mutable fields of a `BrowserState` instance. -/
structure BState where
  user_id : String
  active_session : Option ActiveSession
deriving DecidableEq, Repr

/-- Local temp directories: path to tree, `none` entry = absent dir. -/
abbrev LocalFS := List (String × Tree)

/-- Look up a local directory. -/
def lfsGet : LocalFS → String → Option Tree
  | [], _ => none
  | (p, t) :: rest, q => if p = q then some t else lfsGet rest q

/-- Write a local directory (`storage.download` materializing a tree). -/
def lfsSet : LocalFS → String → Tree → LocalFS
  | [], q, tr => [(q, tr)]
  | (p, t) :: rest, q, tr =>
    if p = q then (q, tr) :: rest else (p, t) :: lfsSet rest q tr

/-- `shutil.rmtree(path)`. -/
def lfsRemove : LocalFS → String → LocalFS
  | [], _ => []
  | (p, t) :: rest, q =>
    if p = q then lfsRemove rest q else (p, t) :: lfsRemove rest q

/-- An abstract storage provider: each operation maps the provider state
to an outcome plus the successor provider state. `download` yields the
local path it populated and the tree it put there; `upload` receives the
tree found at the local path handed to it (`none` if that directory does
not exist). -/
structure StorageModel (σ : Type) where
  download : σ → String → String → Except String (String × Tree) × σ
  upload : σ → String → String → Option Tree → Except String Unit × σ
  deleteSession : σ → String → String → Except String Unit × σ
  listSessions : σ → String → Except String (List String) × σ

/-- The world a `BrowserState` instance acts on: provider state plus the
local temp filesystem. -/
structure World (σ : Type) where
  remote : σ
  lfs : LocalFS
deriving Repr

/-- `BrowserState._cleanup_session`: no-op without an active session;
otherwise remove the active local directory and clear the reference
(exceptions are swallowed; the model's `rmtree` cannot fail). -/
def cleanup_session {σ : Type} (bs : BState) (w : World σ) : BState × World σ :=
  match bs.active_session with
  | none => (bs, w)
  | some act =>
    ({ bs with active_session := none },
     { w with lfs := lfsRemove w.lfs act.path })

/-- `BrowserState.mount_session`: always `_cleanup_session` first (no
upload of the displaced session); a missing or falsy (empty) session id
is replaced by a fresh `uuid4` (parameter `gen`); then
`storage.download`, whose success sets `active_session` and whose
exception propagates (after the cleanup already happened). -/
def mount_session {σ : Type} (S : StorageModel σ) (bs : BState) (w : World σ)
    (session_id? : Option String) (gen : String) :
    Except String ActiveSession × BState × World σ :=
  let (bs1, w1) := cleanup_session bs w
  let sid :=
    match session_id? with
    | none => gen
    | some s => if s = "" then gen else s
  let res := S.download w1.remote bs1.user_id sid
  match res.1 with
  | .ok pt =>
    let act : ActiveSession := ⟨sid, pt.1⟩
    (.ok act, { bs1 with active_session := some act },
     ⟨res.2, lfsSet w1.lfs pt.1 pt.2⟩)
  | .error e => (.error e, bs1, ⟨res.2, w1.lfs⟩)

/-- `BrowserState.unmount_session`: no-op (a logged warning) without an
active session; otherwise `storage.upload` with the active path's
contents — on success `_cleanup_session` runs (reference cleared, local
directory removed); on failure the exception is logged and re-raised
with the instance fields untouched. -/
def unmount_session {σ : Type} (S : StorageModel σ) (bs : BState) (w : World σ) :
    Except String Unit × BState × World σ :=
  match bs.active_session with
  | none => (.ok (), bs, w)
  | some act =>
    let res := S.upload w.remote bs.user_id act.id (lfsGet w.lfs act.path)
    match res.1 with
    | .ok _ =>
      let c := cleanup_session bs ⟨res.2, w.lfs⟩
      (.ok (), c.1, c.2)
    | .error e => (.error e, bs, ⟨res.2, w.lfs⟩)

/-- `BrowserState.delete_session`: when the target is the active session,
`unmount_session` runs first and its exception aborts the deletion;
then `storage.delete_session`; storage exceptions are logged and
re-raised. -/
def delete_session {σ : Type} (S : StorageModel σ) (bs : BState) (w : World σ)
    (session_id : String) : Except String Unit × BState × World σ :=
  match bs.active_session with
  | some act =>
    if act.id = session_id then
      let um := unmount_session S bs w
      match um.1 with
      | .ok _ =>
        let res := S.deleteSession um.2.2.remote um.2.1.user_id session_id
        (res.1, um.2.1, ⟨res.2, um.2.2.lfs⟩)
      | .error e => (.error e, um.2.1, um.2.2)
    else
      let res := S.deleteSession w.remote bs.user_id session_id
      (res.1, bs, ⟨res.2, w.lfs⟩)
  | none =>
    let res := S.deleteSession w.remote bs.user_id session_id
    (res.1, bs, ⟨res.2, w.lfs⟩)

/-- `BrowserState.list_sessions`: delegate; a storage exception is
swallowed and the empty list returned. -/
def bs_list_sessions {σ : Type} (S : StorageModel σ) (bs : BState) (w : World σ) :
    List String × World σ :=
  let res := S.listSessions w.remote bs.user_id
  match res.1 with
  | .ok l => (l, ⟨res.2, w.lfs⟩)
  | .error _ => ([], ⟨res.2, w.lfs⟩)

/-! ## Concrete provider instances used to exercise the manager -/

/-- A provider whose `upload` always raises (a network/storage failure);
the other operations succeed trivially. -/
def failUploadModel : StorageModel Unit where
  download := fun s u sid => (.ok ("/tmp/browserstate/" ++ u ++ "/" ++ sid, []), s)
  upload := fun s _ _ _ => (.error "upload failed", s)
  deleteSession := fun s _ _ => (.ok (), s)
  listSessions := fun s _ => (.ok [], s)

/-- A provider whose state is the log of `upload` calls it has received
(as `(user_id, session_id)` pairs), with downloads served by a pure
function `dl`. -/
def recordingModel (dl : String → String → String × Tree) :
    StorageModel (List (String × String)) where
  download := fun s u sid => (.ok (dl u sid), s)
  upload := fun s u sid _ => (.ok (), (u, sid) :: s)
  deleteSession := fun s _ _ => (.ok (), s)
  listSessions := fun s _ => (.ok [], s)

/-- The temp-path scheme of the concrete backends, as a pure download
function: `{tmp}/browserstate/{user_id}/{session_id}`, empty tree. -/
def tmpPathDownload : String → String → String × Tree :=
  fun u sid => ("/tmp/browserstate/" ++ u ++ "/" ++ sid, [])

/-! ## Helper lemmas -/

theorem isPrefixOf_append_self (a b : List Char) : a.isPrefixOf (a ++ b) = true := by
  induction a with
  | nil => simp [List.isPrefixOf]
  | cons c cs ih => simp [List.isPrefixOf, ih]

theorem get_key_eq (kp u s : List Char) :
    get_key kp u s = (kp ++ ':' :: u ++ [':']) ++ s := by
  simp [get_key]

theorem get_metadata_key_eq (kp u s : List Char) :
    get_metadata_key kp u s = (kp ++ ':' :: u ++ [':']) ++ (s ++ ':' :: "metadata".data) := by
  simp [get_metadata_key]

theorem get_key_ne_metadata_key (kp u s : List Char) :
    get_key kp u s ≠ get_metadata_key kp u s := by
  intro h
  have hl := congrArg List.length h
  have h8 : ("metadata".data).length = 8 := rfl
  simp [get_key, get_metadata_key, h8] at hl

theorem splitOnChar_no_sep {sep : Char} {l : List Char} (h : sep ∉ l) :
    splitOnChar sep l = [l] := by
  induction l with
  | nil => rfl
  | cons c cs ih =>
    have hc : ¬c = sep := fun e => h (e ▸ List.mem_cons_self c cs)
    have hcs : sep ∉ cs := fun m => h (List.mem_cons_of_mem _ m)
    unfold splitOnChar
    rw [ih hcs]
    simp [hc]

theorem splitOnChar_append {sep : Char} {a : List Char} (rest : List Char)
    (h : sep ∉ a) :
    splitOnChar sep (a ++ sep :: rest) = a :: splitOnChar sep rest := by
  induction a with
  | nil => simp [splitOnChar]
  | cons c cs ih =>
    have hc : ¬c = sep := fun e => h (e ▸ List.mem_cons_self c cs)
    have hcs : sep ∉ cs := fun m => h (List.mem_cons_of_mem _ m)
    have hstep : (c :: cs) ++ sep :: rest = c :: (cs ++ sep :: rest) := rfl
    rw [hstep]
    unfold splitOnChar
    rw [ih hcs]
    simp [hc]
    cases rest with
    | nil => rfl
    | cons x xs => rfl

/-- C2 (amended): during download, the tar.gz branch raises the security
error whenever some archive member fails the `is_within_directory` check
of `_safe_extract`, and nothing is extracted; the zip branch performs no
such check and never raises for an entry name — every entry is extracted
at its stdlib-sanitized name under the target, so an escaping entry such
as `../../evil.txt` yields no security error. -/
theorem claim_C2_safe_extraction (target : List Char) (entries : List Entry)
    (prior : Option Tree)
    (h : safeExtractCheck target entries = false) :
    redisDownloadTree (some (.tarGz entries)) prior target =
      .error "Attempted Path Traversal in Tar File" ∧
    redisDownloadTree (some (.zipB64 entries)) prior target =
      .ok (entries.map zipSanitizeEntry) ∧
    redisDownloadTree (some (.zipRaw entries)) prior target =
      .ok (entries.map zipSanitizeEntry) := by
  refine ⟨?_, rfl, rfl⟩
  simp [redisDownloadTree, redisExtract, h]

/-- Witness for C2: a tar archive entry `../../evil.txt` fails the check
under `/tmp/browserstate/u1/s1` and download raises the security error. -/
theorem claim_C2_witness :
    safeExtractCheck "/tmp/browserstate/u1/s1".data
        [⟨["..".data, "..".data, "evil.txt".data], some [101]⟩] = false ∧
    redisDownloadTree
        (some (.tarGz [⟨["..".data, "..".data, "evil.txt".data], some [101]⟩]))
        none "/tmp/browserstate/u1/s1".data =
      .error "Attempted Path Traversal in Tar File" :=
  ⟨by decide,
   (claim_C2_safe_extraction "/tmp/browserstate/u1/s1".data
      [⟨["..".data, "..".data, "evil.txt".data], some [101]⟩] none (by decide)).1⟩

/-- C2 counterexample: a zip blob containing the entry `../../evil.txt`
is unpacked with no error at all — the claim's required security failure
does not happen; the stdlib strips the `..` components and the file
appears as `evil.txt` inside the target. -/
theorem claim_C2_counterexample :
    redisDownloadTree
        (some (.zipB64 [⟨["..".data, "..".data, "evil.txt".data], some [101]⟩]))
        none "/tmp/browserstate/u1/s1".data =
      .ok [⟨["evil.txt".data], some [101]⟩] := rfl

/-- C3: the detector returns "tar.gz" iff the first two bytes are the
gzip magic `1F 8B`; otherwise "zip" iff the base64 decoding succeeds
with `PK\x03\x04` as its first four bytes or the raw first four bytes
are `PK\x03\x04`; otherwise "unknown" — and an unknown classification of
an existing blob during download is a propagated error, not an empty
result. -/
theorem claim_C3_format_detection (d : List Nat) :
    (detect_format d = "tar.gz" ↔ d.take 2 = gzipMagic) ∧
    (detect_format d = "zip" ↔ (¬d.take 2 = gzipMagic ∧
      ((∃ dec, b64decode d = some dec ∧ dec.take 4 = zipMagic) ∨
        d.take 4 = zipMagic))) ∧
    (detect_format d = "unknown" ↔ (¬d.take 2 = gzipMagic ∧
      ¬((∃ dec, b64decode d = some dec ∧ dec.take 4 = zipMagic) ∨
        d.take 4 = zipMagic))) ∧
    (detect_format d = "unknown" → ∀ (prior : Option Tree) (target : List Char),
      redisDownloadTree (some (.raw d)) prior target =
        .error "Unknown format: unknown") := by
  have hb : b64LooksZip d = true ↔
      (∃ dec, b64decode d = some dec ∧ dec.take 4 = zipMagic) := by
    unfold b64LooksZip
    cases h : b64decode d with
    | none => simp
    | some dec => simp
  by_cases h1 : d.take 2 = gzipMagic
  · have hd : detect_format d = "tar.gz" := by
      unfold detect_format
      rw [if_pos h1]
    refine ⟨⟨fun _ => h1, fun _ => hd⟩, ?_, ?_, ?_⟩
    · exact ⟨fun h => absurd (hd.symm.trans h) (by decide),
        fun hx => absurd h1 hx.1⟩
    · exact ⟨fun h => absurd (hd.symm.trans h) (by decide),
        fun hx => absurd h1 hx.1⟩
    · exact fun h => absurd (hd.symm.trans h) (by decide)
  · by_cases h2 : b64LooksZip d = true
    · have hd : detect_format d = "zip" := by
        unfold detect_format
        rw [if_neg h1, if_pos h2]
      refine ⟨⟨fun h => absurd (hd.symm.trans h) (by decide), fun hh => absurd hh h1⟩,
        ⟨fun _ => ⟨h1, Or.inl (hb.mp h2)⟩, fun _ => hd⟩, ?_, ?_⟩
      · exact ⟨fun h => absurd (hd.symm.trans h) (by decide),
          fun hx => absurd (Or.inl (hb.mp h2)) hx.2⟩
      · exact fun h => absurd (hd.symm.trans h) (by decide)
    · by_cases h3 : d.take 4 = zipMagic
      · have hd : detect_format d = "zip" := by
          unfold detect_format
          rw [if_neg h1, if_neg h2, if_pos h3]
        refine ⟨⟨fun h => absurd (hd.symm.trans h) (by decide), fun hh => absurd hh h1⟩,
          ⟨fun _ => ⟨h1, Or.inr h3⟩, fun _ => hd⟩, ?_, ?_⟩
        · exact ⟨fun h => absurd (hd.symm.trans h) (by decide),
            fun hx => absurd (Or.inr h3) hx.2⟩
        · exact fun h => absurd (hd.symm.trans h) (by decide)
      · have hd : detect_format d = "unknown" := by
          unfold detect_format
          rw [if_neg h1, if_neg h2, if_neg h3]
        have hnor : ¬((∃ dec, b64decode d = some dec ∧ dec.take 4 = zipMagic) ∨
            d.take 4 = zipMagic) := by
          rintro (he | hr)
          · exact h2 (hb.mpr he)
          · exact h3 hr
        refine ⟨⟨fun h => absurd (hd.symm.trans h) (by decide), fun hh => absurd hh h1⟩,
          ⟨fun h => absurd (hd.symm.trans h) (by decide), fun hx => absurd hx.2 hnor⟩,
          ⟨fun _ => ⟨h1, hnor⟩, fun _ => hd⟩, ?_⟩
        exact fun _ prior target => by
          simp [redisDownloadTree, redisExtract, hd]

/-- Witness for C3: four junk bytes classify as "unknown" (their base64
decode succeeds but is empty) and download of such a blob raises. -/
theorem claim_C3_witness :
    detect_format [1, 2, 3, 4] = "unknown" ∧
    redisDownloadTree (some (.raw [1, 2, 3, 4])) none "/tmp/bs/u/s".data =
      .error "Unknown format: unknown" :=
  ⟨by decide,
   (claim_C3_format_detection [1, 2, 3, 4]).2.2.2 (by decide) none "/tmp/bs/u/s".data⟩

/-- C4 (amended): the key-value backend's download always clears the
target first — its result never depends on the prior temp contents, and
an absent session yields an empty directory without raising. The local
backend diverges on both sides of its branch: with no stored session it
does not raise but returns the stale prior contents unchanged (empty
only when no prior copy existed); with a stored session it discards the
prior copy and recreates the target, but then `copytree` — called with
`True` bound to `symlinks`, leaving `dirs_exist_ok` False against the
just-created target — always raises `FileExistsError`, independently of
the prior contents, leaving the target empty. -/
theorem claim_C4_fresh_download :
    (∀ (kp u s target : List Char) (prior : Option Tree),
      redisDownload [] kp u s prior target = .ok []) ∧
    (∀ (st : RedisStore) (kp u s target : List Char) (prior prior' : Option Tree),
      redisDownload st kp u s prior target = redisDownload st kp u s prior' target) ∧
    (∀ (persisted : Tree) (prior : Option Tree),
      localDownload (some persisted) prior = (.error "FileExistsError", [])) ∧
    (∀ stale : Tree, localDownload none (some stale) = (.ok (), stale)) ∧
    localDownload none none = (.ok (), []) :=
  ⟨fun _ _ _ _ _ => rfl, fun _ _ _ _ _ _ _ => rfl, fun _ _ => rfl, fun _ => rfl, rfl⟩

/-- C4 counterexample: with no stored session but a stale pre-existing
local copy, the local backend's download returns (without raising) the
stale, non-empty directory — not the empty directory the claim
requires. -/
theorem claim_C4_counterexample :
    localDownload none (some [⟨["stale.txt".data], some [115]⟩]) =
      (.ok (), [⟨["stale.txt".data], some [115]⟩]) ∧
    ([⟨["stale.txt".data], some [115]⟩] : Tree) ≠ ([] : Tree) := by
  refine ⟨rfl, by decide⟩

/-- C5 (amended): when an active session exists and the storage upload
raises, `unmount_session` propagates the error but leaves the instance
untouched — in particular the ActiveSession reference is still set when
the call returns; it is cleared only on upload success. -/
theorem claim_C5_unmount_failure {σ : Type} (S : StorageModel σ) (bs : BState)
    (w : World σ) (act : ActiveSession) (e : String) (r' : σ)
    (hact : bs.active_session = some act)
    (hup : S.upload w.remote bs.user_id act.id (lfsGet w.lfs act.path) =
      (.error e, r')) :
    unmount_session S bs w = (.error e, bs, ⟨r', w.lfs⟩) := by
  unfold unmount_session
  rw [hact]
  simp [hup]

/-- Witness for C5: a provider whose upload raises leaves the manager
mounted and the error propagates. -/
theorem claim_C5_witness :
    unmount_session failUploadModel ⟨"u1", some ⟨"s1", "/p1"⟩⟩ ⟨(), [("/p1", [])]⟩ =
      (.error "upload failed", ⟨"u1", some ⟨"s1", "/p1"⟩⟩, ⟨(), [("/p1", [])]⟩) :=
  claim_C5_unmount_failure failUploadModel ⟨"u1", some ⟨"s1", "/p1"⟩⟩
    ⟨(), [("/p1", [])]⟩ ⟨"s1", "/p1"⟩ "upload failed" () rfl rfl

/-- C5 counterexample: after a failed upload the ActiveSession reference
is NOT cleared — `unmount_session` returns with the session still
mounted, contradicting the claim that it is cleared before the call
returns. -/
theorem claim_C5_counterexample :
    (unmount_session failUploadModel ⟨"u1", some ⟨"s1", "/p1"⟩⟩
        ⟨(), [("/p1", [])]⟩).1 = .error "upload failed" ∧
    (unmount_session failUploadModel ⟨"u1", some ⟨"s1", "/p1"⟩⟩
        ⟨(), [("/p1", [])]⟩).2.1.active_session = some ⟨"s1", "/p1"⟩ :=
  ⟨rfl, rfl⟩

/-- C6 (amended): when an ActiveSession exists, `mount_session` runs
only `_cleanup_session` before downloading: the displaced session's
local directory is removed and the reference cleared, but its contents
are NOT uploaded — against the recording provider, the upload log after
the mount equals the log before it, while the requested session is
downloaded and made active. -/
theorem claim_C6_mount_discards_without_upload
    (dl : String → String → String × Tree) (bs : BState)
    (w : World (List (String × String))) (act : ActiveSession) (sid gen : String)
    (hact : bs.active_session = some act) (hsid : ¬sid = "") :
    mount_session (recordingModel dl) bs w (some sid) gen =
      (.ok ⟨sid, (dl bs.user_id sid).1⟩,
       ⟨bs.user_id, some ⟨sid, (dl bs.user_id sid).1⟩⟩,
       ⟨w.remote, lfsSet (lfsRemove w.lfs act.path) (dl bs.user_id sid).1
          (dl bs.user_id sid).2⟩) := by
  unfold mount_session cleanup_session
  rw [hact]
  simp [recordingModel, hsid]

/-- Witness for C6: mounting "s1" while "s0" is active records no upload
(empty log), removes "/p0", and activates "s1". -/
theorem claim_C6_witness :
    mount_session (recordingModel tmpPathDownload) ⟨"u1", some ⟨"s0", "/p0"⟩⟩
        ⟨[], [("/p0", [⟨["a".data], some [97]⟩])]⟩ (some "s1") "gen" =
      (.ok ⟨"s1", "/tmp/browserstate/u1/s1"⟩,
       ⟨"u1", some ⟨"s1", "/tmp/browserstate/u1/s1"⟩⟩,
       ⟨[], [("/tmp/browserstate/u1/s1", [])]⟩) :=
  claim_C6_mount_discards_without_upload tmpPathDownload
    ⟨"u1", some ⟨"s0", "/p0"⟩⟩ ⟨[], [("/p0", [⟨["a".data], some [97]⟩])]⟩
    ⟨"s0", "/p0"⟩ "s1" "gen" rfl (by decide)

/-- C6 counterexample: mounting while a session is active performs no
upload at all — the recording provider's upload log stays empty and the
displaced session's local directory (holding an unsaved file) is
removed, so the claimed "full unmount sequence (uploading the currently
active session's directory ...)" is not performed. -/
theorem claim_C6_counterexample :
    (mount_session (recordingModel tmpPathDownload) ⟨"u1", some ⟨"s0", "/p0"⟩⟩
        ⟨[], [("/p0", [⟨["a".data], some [97]⟩])]⟩ (some "s1") "gen").2.2.remote =
      [] ∧
    lfsGet (mount_session (recordingModel tmpPathDownload)
        ⟨"u1", some ⟨"s0", "/p0"⟩⟩ ⟨[], [("/p0", [⟨["a".data], some [97]⟩])]⟩
        (some "s1") "gen").2.2.lfs "/p0" = none :=
  ⟨rfl, rfl⟩

/-- C7: contrary to the claim (and to the repository's own test
`test_redis_storage_validation`), the key-value backend performs no
delimiter validation: construction with a colon in the key prefix
succeeds, a colon inside `user_id` produces a key colliding with that of
a different `(user_id, session_id)` pair, and upload proceeds to write
both keys with no error. -/
theorem claim_C7_no_delimiter_validation :
    redisInit "browser:state" "zip" = .ok ("browser:state", "zip") ∧
    get_key "browserstate".data "test:user".data "session1".data =
      get_key "browserstate".data "test".data "user:session1".data ∧
    (redisUpload [] "browserstate".data "test:user".data "s1".data "zip"
        "s1".data [] 0).length = 2 :=
  ⟨rfl, by decide, rfl⟩

/-- C8: for colon-free prefix and identifiers, after exactly one upload
of one session via the key-value backend (zip format, which also writes
the metadata side-key), `list_sessions` pattern-matches
`{prefix}:{user_id}:*`, excludes the metadata key by its separator
count, deduplicates, and returns exactly the one session id. -/
theorem claim_C8_listing (kp u s bn : List Char) (T : Tree) (mt : Nat)
    (hkp : ':' ∉ kp) (hu : ':' ∉ u) (hs : ':' ∉ s) :
    redisListSessions (redisUpload [] kp u s "zip" bn T mt) kp u = [s] := by
  have hne := get_key_ne_metadata_key kp u s
  have hstore : redisUpload [] kp u s "zip" bn T mt =
      [(get_key kp u s, .zipB64 (zipPack T)),
       (get_metadata_key kp u s, .meta mt (countFiles T) "2.0")] := by
    unfold redisUpload
    rw [if_neg (by decide)]
    simp [redisSet, hne]
  have hsplit1 : splitOnChar ':' (get_key kp u s) = [kp, u, s] := by
    have e1 : get_key kp u s = kp ++ ':' :: (u ++ ':' :: s) := by
      simp [get_key]
    rw [e1, splitOnChar_append _ hkp, splitOnChar_append _ hu,
      splitOnChar_no_sep hs]
  have hsplit2 : splitOnChar ':' (get_metadata_key kp u s) =
      [kp, u, s, "metadata".data] := by
    have e2 : get_metadata_key kp u s =
        kp ++ ':' :: (u ++ ':' :: (s ++ ':' :: "metadata".data)) := by
      simp [get_metadata_key]
    rw [e2, splitOnChar_append _ hkp, splitOnChar_append _ hu,
      splitOnChar_append _ hs, splitOnChar_no_sep (by decide)]
  have hp1 : (kp ++ ':' :: u ++ [':']).isPrefixOf (get_key kp u s) = true := by
    rw [get_key_eq]
    exact isPrefixOf_append_self _ _
  have hp2 : (kp ++ ':' :: u ++ [':']).isPrefixOf (get_metadata_key kp u s) = true := by
    rw [get_metadata_key_eq]
    exact isPrefixOf_append_self _ _
  rw [hstore]
  unfold redisListSessions
  simp only [List.map, List.filter, hp1, hp2, List.foldl]
  unfold listSessionsStep
  rw [hsplit1, hsplit2]
  simp

/-- Witness for C8: one concrete upload, one listed session. -/
theorem claim_C8_witness :
    redisListSessions (redisUpload [] "browserstate".data "user1".data
        "sessionA".data "zip" "sessionA".data [⟨["f.txt".data], some [1]⟩] 5)
      "browserstate".data "user1".data = ["sessionA".data] :=
  claim_C8_listing "browserstate".data "user1".data "sessionA".data
    "sessionA".data [⟨["f.txt".data], some [1]⟩] 5
    (by decide) (by decide) (by decide)

/-- C9 (amended): `mount_session` applies no validation to identifiers:
an empty `session_id` string is falsy in Python, so it is treated
exactly like an absent one and silently replaced by the generated uuid;
no validation error is ever raised for it. -/
theorem claim_C9_empty_id_generated {σ : Type} (S : StorageModel σ) (bs : BState)
    (w : World σ) (gen : String) :
    mount_session S bs w (some "") gen = mount_session S bs w none gen := rfl

/-- C9 counterexample: mounting with the empty session id succeeds (no
validation error) and the generated id is silently substituted. -/
theorem claim_C9_counterexample :
    (mount_session (recordingModel tmpPathDownload) ⟨"u1", none⟩ ⟨[], []⟩
        (some "") "generated-uuid").1 =
      .ok ⟨"generated-uuid", "/tmp/browserstate/u1/generated-uuid"⟩ := rfl

/-- C10: deleting a session that is not the active one (or deleting with
no active session) leaves the ActiveSession reference and the whole
local temp filesystem — in particular the active session's working
directory — unchanged. -/
theorem claim_C10_delete_nonactive_frame {σ : Type} (S : StorageModel σ)
    (bs : BState) (w : World σ) (sid : String)
    (h : ∀ act, bs.active_session = some act → act.id ≠ sid) :
    (delete_session S bs w sid).2.1 = bs ∧
    (delete_session S bs w sid).2.2.lfs = w.lfs := by
  cases hact : bs.active_session with
  | none =>
    unfold delete_session
    rw [hact]
    exact ⟨rfl, rfl⟩
  | some act =>
    have hne : ¬act.id = sid := h act hact
    unfold delete_session
    rw [hact]
    simp [hne]

/-- Witness for C10: deleting "s1" while "s0" is mounted touches neither
the reference nor the local directories. -/
theorem claim_C10_witness :
    (delete_session (recordingModel tmpPathDownload) ⟨"u1", some ⟨"s0", "/p0"⟩⟩
        ⟨[], [("/p0", [])]⟩ "s1").2.1 = ⟨"u1", some ⟨"s0", "/p0"⟩⟩ ∧
    (delete_session (recordingModel tmpPathDownload) ⟨"u1", some ⟨"s0", "/p0"⟩⟩
        ⟨[], [("/p0", [])]⟩ "s1").2.2.lfs = [("/p0", [])] :=
  claim_C10_delete_nonactive_frame (recordingModel tmpPathDownload)
    ⟨"u1", some ⟨"s0", "/p0"⟩⟩ ⟨[], [("/p0", [])]⟩ "s1"
    (fun act h => by
      injection h with h2
      rw [← h2]
      decide)

end BrowserState
